import Mathlib

/-!
Verification of the search core of `src/uesf/app.js` (address search with
isochrone filtering and autocomplete).  JS numbers are modelled by exact
rationals `ℚ` where the code does comparisons and field arithmetic, and by
real numbers `ℝ` where the code calls transcendental functions
(`Math.sin`, `Math.cos`, `Math.atan2`, `Math.sqrt`).  Fallible fetches are
modelled by explicit response values and `Except`; the asynchronous
interleavings of the browser event loop are modelled by merges of the
per-run atomic action sequences.
-/

namespace UESF

/-- A 2-D point `[x, y]` as destructured by `pointInPolygon` in `app.js`. -/

abbrev Pt := ℚ × ℚ

/-- The loop body of `pointInPolygon` (`app.js` lines 98-108): the edge from
`(xi, yi)` to `(xj, yj)` toggles the `inside` flag when the endpoint
latitudes straddle `py` (strict `>` on one side only, JS `!==` on booleans)
and `px` lies strictly left of the edge's x-coordinate at height `py`. -/

def crossesRay (point : Pt) (e : Pt × Pt) : Bool :=
  let px := point.1
  let py := point.2
  let xi := e.1.1
  let yi := e.1.2
  let xj := e.2.1
  let yj := e.2.2
  (decide (yi > py) != decide (yj > py)) &&
    decide (px < (xj - xi) * (py - yi) / (yj - yi) + xi)

/-- The `(polygon[i], polygon[j])` pairs visited by the `for` loop of
`pointInPolygon`: `i` runs forward over all indices while `j` trails it
cyclically, starting at the last index. -/

def loopEdges (polygon : List Pt) : List (Pt × Pt) :=
  match polygon.getLast? with
  | none => []
  | some l => polygon.zip (l :: polygon.dropLast)

/-- `pointInPolygon` from `app.js` lines 94-112: even-odd ray casting, the
`inside` flag is toggled once per crossing edge. -/

def pointInPolygon (point : Pt) (polygon : List Pt) : Bool :=
  (loopEdges polygon).foldl
    (fun inside e => if crossesRay point e then !inside else inside) false

/-- Linear adjacent pairs of a list, used to relate the cyclic edge list of a
polygon to the cyclic edge list of its reversal. -/

def adjPairs : List Pt → List (Pt × Pt)
  | [] => []
  | [_] => []
  | a :: b :: t => (a, b) :: adjPairs (b :: t)

/-- JS `Math.round`: round to nearest integer, halves toward positive
infinity. -/

def jsRound (x : ℚ) : ℤ := ⌊x + 1/2⌋

/-- JS `Number.prototype.toFixed(1)` for a nonnegative argument (the only
case `formatDistance` reaches): the integer `n` with `n / 10` nearest to the
value, ties toward the larger `n`, printed with exactly one decimal digit. -/

def toFixed1 (x : ℚ) : String :=
  let n : ℤ := ⌊x * 10 + 1/2⌋
  toString (n / 10) ++ "." ++ toString (n % 10)

/-- `formatDistance` from `app.js` lines 129-134: below 1000 round to integer
meters with a " m" suffix, otherwise divide by 1000 and show one decimal
with a " km" suffix. -/

def formatDistance (meters : ℚ) : String :=
  if meters < 1000 then toString (jsRound meters) ++ " m"
  else toFixed1 (meters / 1000) ++ " km"

noncomputable section

/-- The `toRad` helper inside `haversineDistance`: degrees to radians. -/

def toRad (deg : ℝ) : ℝ := deg * Real.pi / 180

/-- JS `Math.atan2 y x` for real arguments. -/

def atan2 (y x : ℝ) : ℝ :=
  if 0 < x then Real.arctan (y / x)
  else if x < 0 ∧ 0 ≤ y then Real.arctan (y / x) + Real.pi
  else if x < 0 ∧ y < 0 then Real.arctan (y / x) - Real.pi
  else if x = 0 ∧ 0 < y then Real.pi / 2
  else if x = 0 ∧ y < 0 then -(Real.pi / 2)
  else 0

/-- `haversineDistance` from `app.js` lines 116-127: haversine formula with
Earth radius 6,371,000 m, combined with `Math.atan2` exactly as the source
writes it. -/

def haversineDistance (lat1 lon1 lat2 lon2 : ℝ) : ℝ :=
  let R : ℝ := 6371000
  let dLat := toRad (lat2 - lat1)
  let dLon := toRad (lon2 - lon1)
  let a := Real.sin (dLat / 2) ^ 2 +
    Real.cos (toRad lat1) * Real.cos (toRad lat2) * Real.sin (dLon / 2) ^ 2
  let c := 2 * atan2 (Real.sqrt a) (Real.sqrt (1 - a))
  R * c

end

/-- A facility from the static `SFUSD_SCHOOLS` catalogue referenced by the
submit handler: coordinates plus display metadata.  The catalogue data file
itself lives outside the search core; the pipeline treats it as an opaque
read-only list. -/

structure School where
  name : String
  lat : ℚ
  lng : ℚ
  address : Option String := none
  website : Option String := none

/-- Steps 3-4 of the submit handler (`app.js` lines 461-473), generic in the
distance key: filter the catalogue by `pointInPolygon` on `[lng, lat]`,
annotate each survivor with its distance (the JS code copies each school and
assigns `school.distance`), and sort ascending by distance with the
comparator `(a, b) => a.distance - b.distance`.  JS `Array.prototype.sort`
is a stable sort (ES2019), modelled by the verified stable
`List.mergeSort`. -/

def rankSchools {κ : Type} [LinearOrder κ] (dist : School → κ)
    (polygon : List Pt) (schools : List School) : List (School × κ) :=
  ((schools.filter (fun s => pointInPolygon (s.lng, s.lat) polygon)).map
    (fun s => (s, dist s))).mergeSort (fun a b => decide (a.2 ≤ b.2))

/-- The concrete filter-and-rank computation of the submit handler, keyed by
the haversine distance from the resolved coordinate `(lat, lng)`. -/

noncomputable def searchSchools (lat lng : ℚ) (polygon : List Pt)
    (schools : List School) : List (School × ℝ) :=
  rankSchools
    (fun s => haversineDistance (lat : ℝ) (lng : ℝ) (s.lat : ℝ) (s.lng : ℝ))
    polygon schools

/-- Concrete candidates, polygon and distance used by the C3 witness. -/

def schoolAlpha : School := ⟨"Alpha", 0, 0, none, none⟩

def schoolBeta : School := ⟨"Beta", 0, 0, none, none⟩

def squarePoly : List Pt := [(-1, -1), (1, -1), (1, 1), (-1, 1)]

noncomputable def originDist : ℝ :=
  haversineDistance ((0 : ℚ) : ℝ) ((0 : ℚ) : ℝ) ((0 : ℚ) : ℝ) ((0 : ℚ) : ℝ)

/-- Outcome of a JS `fetch` plus `response.json()` as observed by the code:
a response body with `ok = true`, a response with a non-success HTTP status
(`ok = false`), or a transport-level failure, in which case `await fetch`
throws a `TypeError`. -/

inductive HttpResult (β : Type) where
  | success (body : β)
  | httpError (status : Nat)
  | transportError

/-- A JS `Error` value as consumed by `handleError`: its `name` and its
`message`. -/

structure JsError where
  name : String
  msg : String

/-- JS `String.prototype.trim`: drop whitespace from both ends. -/

def jsTrim (s : String) : String :=
  String.mk
    ((s.toList.dropWhile Char.isWhitespace).reverse.dropWhile Char.isWhitespace).reverse

/-- Whether the first list starts with the second-argument pattern. -/

def listStartsWith : List Char → List Char → Bool
  | [], _ => true
  | _ :: _, [] => false
  | p :: ps, c :: cs => p == c && listStartsWith ps cs

/-- Whether `pat` occurs contiguously inside the second list. -/

def hasSubstring (pat : List Char) : List Char → Bool
  | [] => pat.isEmpty
  | c :: cs => listStartsWith pat (c :: cs) || hasSubstring pat cs

/-- Substring test, JS `String.prototype.includes`. -/

def strIncludes (s pat : String) : Bool :=
  hasSubstring pat.toList s.toList

/-- JS `String.prototype.replace` with a string pattern: replaces the first
occurrence only (the behaviour `fetchSuggestions` relies on for a nonempty
`f.text` pattern). -/

def replaceFirst (s pat repl : String) : String :=
  match s.splitOn pat with
  | [] => s
  | [_] => s
  | p :: rest => p ++ repl ++ String.intercalate pat rest

/-- The `/^,\s*/` regex replace in `fetchSuggestions`: strip one leading
comma and the whitespace after it. -/

def stripLeadingComma (s : String) : String :=
  if s.startsWith "," then (s.drop 1).dropWhile Char.isWhitespace
  else s

/-- One feature of a geocoding autocomplete response as read by
`fetchSuggestions`: `place_name` and `text`. -/

structure SuggestFeature where
  placeName : String
  text : String

/-- The parsed JSON body of an autocomplete response; `features` may be
absent (`data.features || []`). -/

structure SuggestData where
  features : Option (List SuggestFeature)

/-- A rendered suggestion as built by `fetchSuggestions`. -/

structure Suggestion where
  placeName : String
  text : String
  context : String

/-- `fetchSuggestions` from `app.js` lines 327-343 as a function of the
fetch outcome.  A non-ok HTTP status returns `[]`; a missing `features`
field maps over `[]`; but a transport failure makes `await fetch` throw, so
the async function rejects — modelled as `Except.error`.  Nothing in the
autocomplete flow catches that rejection. -/

def fetchSuggestions : HttpResult SuggestData → Except JsError (List Suggestion)
  | .httpError _ => .ok []
  | .success d => .ok ((d.features.getD []).map (fun f =>
      { placeName := f.placeName, text := f.text,
        context := stripLeadingComma (replaceFirst f.placeName f.text "") }))
  | .transportError => .error ⟨"TypeError", "Failed to fetch"⟩

/-- One feature of a geocoding response as read by `geocodeAddress`:
`center` is the `[lng, lat]` array, `place_name` the label. -/

structure GeoPoint where
  center : ℚ × ℚ
  placeName : String

/-- The parsed JSON body of a geocoding response. -/

structure GeoData where
  features : Option (List GeoPoint)

/-- The resolved coordinate returned by `geocodeAddress`. -/

structure Coords where
  lng : ℚ
  lat : ℚ
  placeName : String

/-- `geocodeAddress` from `app.js` lines 49-68 as a function of the fetch
outcome: throws on non-ok status, throws "Address not found" on an absent
or empty feature list, otherwise returns the first feature's center and
label. -/

def geocodeAddress : HttpResult GeoData → Except JsError Coords
  | .transportError => .error ⟨"TypeError", "Failed to fetch"⟩
  | .httpError status =>
    .error ⟨"Error", "Geocoding failed (HTTP " ++ toString status ++ ")"⟩
  | .success d =>
    match d.features with
    | none => .error ⟨"Error", "Address not found. Please try a more specific address."⟩
    | some [] => .error ⟨"Error", "Address not found. Please try a more specific address."⟩
    | some (f :: _) => .ok ⟨f.center.1, f.center.2, f.placeName⟩

/-- The `geometry` object of an isochrone feature: `coordinates` is a list
of rings. -/

structure IsoGeometry where
  coordinates : List (List Pt)

/-- One isochrone GeoJSON feature. -/

structure IsoFeature where
  geometry : IsoGeometry

/-- The parsed JSON body of an isochrone response. -/

structure IsoData where
  features : Option (List IsoFeature)

/-- `fetchIsochrone` from `app.js` lines 72-90: fails on a non-ok status or
an absent/empty `features` array, otherwise returns the whole GeoJSON data
unchanged.  No validation of ring presence, shape or vertex count happens
here. -/

def fetchIsochrone : HttpResult IsoData → Except JsError IsoData
  | .transportError => .error ⟨"TypeError", "Failed to fetch"⟩
  | .httpError status =>
    .error ⟨"Error", "Isochrone API failed (HTTP " ++ toString status ++ ")"⟩
  | .success d =>
    match d.features with
    | none => .error ⟨"Error", "Could not generate walking distance area for this location."⟩
    | some [] => .error ⟨"Error", "Could not generate walking distance area for this location."⟩
    | some _ => .ok d

/-- `handleError` from `app.js` lines 307-323: map an error to the
user-visible status message by substring dispatch on the message plus the
TypeError/fetch check, with a generic fallback. -/

def handleErrorMessage (err : JsError) : String :=
  if strIncludes err.msg "Address not found" then err.msg
  else if strIncludes err.msg "Geocoding failed" then
    "Could not look up that address. Please check your input and try again."
  else if strIncludes err.msg "Isochrone" then
    "Could not calculate walking distance from this location. Try a different address."
  else if err.name == "TypeError" && strIncludes err.msg "fetch" then
    "Network error. Please check your internet connection."
  else "An unexpected error occurred. Please try again."

/-- The terminal outcome of one run of the submit listener: a no-op on an
empty trimmed query, a user-visible error message set by `handleError`, or
the displayed ranked result list. -/

inductive SubmitResult where
  | noQuery
  | failed (userMessage : String)
  | done (results : List (School × ℝ))

/-- Whether a submit outcome is a failure state delivered through
`handleError`. -/

def SubmitResult.isFailureState : SubmitResult → Bool
  | .failed _ => true
  | _ => false

/-- The search pipeline of the submit listener (`app.js` lines 442-484) as
a function of the query and the two fetch outcomes.  The region ring is
taken from `features[0].geometry.coordinates[0]` with no validation: when
`coordinates` is empty, `coordinates[0]` is `undefined` and the first use
(either `polygon.length` inside `pointInPolygon` or the bounds loop in
`displayOnMap`) throws a `TypeError` that the surrounding `catch` turns
into the generic message.  When a ring is present — whatever its vertex
count — the pipeline filters and ranks with it. -/

noncomputable def runSearch (query : String) (geoResp : HttpResult GeoData)
    (isoResp : HttpResult IsoData) (schools : List School) : SubmitResult :=
  if jsTrim query = "" then .noQuery
  else
    match geocodeAddress geoResp with
    | .error e => .failed (handleErrorMessage e)
    | .ok coords =>
      match fetchIsochrone isoResp with
      | .error e => .failed (handleErrorMessage e)
      | .ok iso =>
        match (iso.features.getD []).head? with
        | none =>
          .failed (handleErrorMessage
            ⟨"TypeError", "Cannot read properties of undefined (reading 'geometry')"⟩)
        | some feat =>
          match feat.geometry.coordinates.head? with
          | none =>
            .failed (handleErrorMessage
              ⟨"TypeError", "Cannot read properties of undefined (reading 'length')"⟩)
          | some ring => .done (searchSchools coords.lat coords.lng ring schools)

/-- A concrete isochrone body whose first ring has only 2 vertices, used by
the C9 counterexample. -/

def degenerateIso : IsoData := ⟨some [⟨⟨[[(0, 0), (5, 5)]]⟩⟩]⟩

/-- A concrete geocoding body resolving to the origin, used by the C9
counterexample. -/

def originGeo : GeoData := ⟨some [⟨(0, 0), "Origin"⟩]⟩

/-- Actions of one run of the async submit listener (`app.js` lines
442-484): `start` is the synchronous prefix up to the first `await`
(hide the autocomplete, clear the previous results, show the loading
overlay); `finish` is the resumption after the last `await`, which displays
the run's results or its error message and hides the overlay.  The listener
holds no run token and performs no staleness check before displaying. -/

inductive SubmitAction (ω : Type) where
  | start (runId : Nat)
  | finish (runId : Nat) (outcome : ω)

/-- Effect of one submit-handler segment on the visible result panel:
`start` clears it, `finish` unconditionally overwrites it with the
finishing run's outcome, whatever else happened in between. -/

def submitStep {ω : Type} (_st : Option (Nat × ω)) : SubmitAction ω → Option (Nat × ω)
  | .start _ => none
  | .finish r o => some (r, o)

/-- The visible result panel after a sequence of submit-handler segments. -/

def execSubmit {ω : Type} (acts : List (SubmitAction ω)) : Option (Nat × ω) :=
  acts.foldl submitStep none

/-- The two atomic segments of one submit-handler run. -/

def submitRun {ω : Type} (runId : Nat) (outcome : ω) : List (SubmitAction ω) :=
  [.start runId, .finish runId outcome]

/-- An interleaving of two action sequences that preserves each sequence's
internal order: exactly the executions the single-threaded browser event
loop allows for two concurrently pending async flows. -/

inductive Merge {α : Type} : List α → List α → List α → Prop
  | nil : Merge [] [] []
  | left {x : α} {xs ys zs : List α} : Merge xs ys zs → Merge (x :: xs) ys (x :: zs)
  | right {y : α} {xs ys zs : List α} : Merge xs ys zs → Merge xs (y :: ys) (y :: zs)

/-- The concrete interleaving refuting C1: run 1 is submitted after run 0
started (its `start` comes before run 0's `finish`), run 1 finishes first,
and run 0's awaited responses resolve afterwards, overwriting run 1's
displayed outcome. -/

def staleSubmitTrace : List (SubmitAction SubmitResult) :=
  [.start 0, .start 1, .finish 1 (.done []), .finish 0 (.failed "boom")]

/-- Atomic events of autocomplete debounce cycle `r` (`app.js` lines
394-408).  `key r` is the input event that starts cycle r's debounce timer;
its `clearTimeout` cancels whichever timer was pending.  `fire r` is cycle
r's timer callback issuing its suggestion fetch; a cancelled timer never
fires, modelled by the `pending` guard making a stale `fire` a no-op.
`render r s` is cycle r's fetch resolving with suggestions `s`, upon which
the callback calls `renderSuggestions` unconditionally — there is no
staleness token compared. -/

inductive AutoAction where
  | key (cycle : Nat)
  | fire (cycle : Nat)
  | render (cycle : Nat) (suggestions : List String)

/-- Debounce-flow state: the cycle whose timer is currently pending, the
cycles whose fetch has been issued, and the issuing cycle and payload of
the last executed render. -/

structure AutoFlow where
  pending : Option Nat
  inflight : List Nat
  rendered : Option (Nat × List String)

/-- One autocomplete debounce-flow transition. -/

def autoFlowStep (st : AutoFlow) : AutoAction → AutoFlow
  | .key r => { st with pending := some r }
  | .fire r =>
    if st.pending = some r then
      { st with pending := none, inflight := r :: st.inflight }
    else st
  | .render r s =>
    if r ∈ st.inflight then { st with rendered := some (r, s) } else st

/-- The debounce-flow state reached from idle by a sequence of events. -/

def execAutoFlow (acts : List AutoAction) : AutoFlow :=
  acts.foldl autoFlowStep ⟨none, [], none⟩

/-- The three events of one uninterrupted debounce cycle. -/

def autoCycle (r : Nat) (s : List String) : List AutoAction :=
  [.key r, .fire r, .render r s]

/-- The schedule refuting C2: keystroke of cycle 1 arrives after cycle 0's
timer fired (request 0 already issued), cycle 1's fetch resolves first,
then cycle 0's stale response arrives and renders last. -/

def staleAutoTrace : List AutoAction :=
  [.key 0, .fire 0, .key 1, .fire 1, .render 1 ["new"], .render 0 ["old"]]

/-- The suggestion-dropdown UI state touched by the autocomplete listeners:
the rendered items, the `hidden` class on the list, and
`activeAutocompleteIndex`. -/

structure AutoUi where
  rendered : List String
  hidden : Bool
  activeIdx : Int

/-- `renderSuggestions` from `app.js` lines 345-374: clear the list and
reset the active index to -1; when the suggestion list is empty add
`hidden` and stop, otherwise populate the items and remove `hidden`. -/

def renderSuggestions (suggestions : List String) (_st : AutoUi) : AutoUi :=
  if suggestions.isEmpty then ⟨[], true, -1⟩
  else ⟨suggestions, false, -1⟩

/-- `selectSuggestion` from `app.js` lines 376-382: hide and clear the list
and reset the index (the triggered form resubmission is outside this
state). -/

def selectSuggestion (_st : AutoUi) : AutoUi := ⟨[], true, -1⟩

/-- The UI events touching the dropdown state: an input event with the
trimmed query length, a resolved suggestion fetch, the four handled keys,
the deferred blur handler, and the submit listener's clearing prefix. -/

inductive UiEvent where
  | input (trimmedLen : Nat)
  | suggestResolve (suggestions : List String)
  | arrowDown
  | arrowUp
  | enterKey
  | escapeKey
  | blurFire
  | submitClear

/-- One step of the autocomplete UI listeners (`app.js` lines 394-438 and
447-448).  The input listener below the 3-character threshold hides and
empties the list but does not reset the index; the keydown listener returns
early when the list is hidden or empty; ArrowDown/ArrowUp clamp with
`Math.min`/`Math.max`; Enter selects only when the index is nonnegative;
Escape hides and resets the index; the blur timeout hides and resets
unconditionally; the submit prefix hides and clears without resetting. -/

def uiStep (st : AutoUi) : UiEvent → AutoUi
  | .input n => if n < 3 then { st with hidden := true, rendered := [] } else st
  | .suggestResolve s => renderSuggestions s st
  | .arrowDown =>
    if st.hidden || st.rendered.isEmpty then st
    else { st with activeIdx := min (st.activeIdx + 1) ((st.rendered.length : Int) - 1) }
  | .arrowUp =>
    if st.hidden || st.rendered.isEmpty then st
    else { st with activeIdx := max (st.activeIdx - 1) 0 }
  | .enterKey =>
    if st.hidden || st.rendered.isEmpty then st
    else if 0 ≤ st.activeIdx then selectSuggestion st else st
  | .escapeKey =>
    if st.hidden || st.rendered.isEmpty then st
    else { st with hidden := true, activeIdx := -1 }
  | .blurFire => { st with hidden := true, activeIdx := -1 }
  | .submitClear => { st with hidden := true, rendered := [] }

/-- Initial dropdown state: empty hidden list, index -1. -/

def uiInit : AutoUi := ⟨[], true, -1⟩

/-- The dropdown state after a sequence of UI events. -/

def runUi (events : List UiEvent) : AutoUi :=
  events.foldl uiStep uiInit

/-- The event sequence refuting C10: render two suggestions, move the
selection down once, then shrink the input below the autocomplete
threshold — the list is cleared but the index is left at 0. -/

def staleIdxTrace : List UiEvent :=
  [.input 3, .suggestResolve ["s1", "s2"], .arrowDown, .input 2]

/-- The conditional range invariant: whenever the dropdown is visible, the
active index lies in [-1, n-1]. -/

def uiInv (st : AutoUi) : Prop :=
  st.hidden = false → -1 ≤ st.activeIdx ∧ st.activeIdx < (st.rendered.length : Int)

theorem decide_odd_succ (n : ℕ) : decide (Odd (n + 1)) = !decide (Odd n) := by
  simp only [Nat.odd_iff]
  by_cases h : n % 2 = 1
  · have h2 : (n + 1) % 2 = 0 := by omega
    simp [h, h2]
  · have h2 : (n + 1) % 2 = 1 := by omega
    simp [h, h2]

theorem foldl_toggle_eq_countP (point : Pt) :
    ∀ (l : List (Pt × Pt)) (b : Bool),
      l.foldl (fun inside e => if crossesRay point e then !inside else inside) b =
        (xor b (decide (Odd (l.countP (crossesRay point))))) := by
  intro l
  induction l with
  | nil => intro b; simp
  | cons e t ih =>
    intro b
    simp only [List.foldl_cons, List.countP_cons]
    rw [ih]
    by_cases h : crossesRay point e = true
    · simp only [h, if_true, if_pos]
      rw [decide_odd_succ]
      generalize decide (Odd (t.countP (crossesRay point))) = d
      cases b <;> cases d <;> rfl
    · rw [if_neg (by simpa using h)]
      simp [h]

theorem bne_swap (a b : Bool) : (a != b) = (b != a) := by
  cases a <;> cases b <;> rfl

theorem crossesRay_swap (point : Pt) (a b : Pt) :
    crossesRay point (b, a) = crossesRay point (a, b) := by
  rcases point with ⟨px, py⟩
  rcases a with ⟨xi, yi⟩
  rcases b with ⟨xj, yj⟩
  simp only [crossesRay]
  by_cases hy : yi = yj
  · subst hy
    simp [bne_self_eq_false]
  · have h1 : yj - yi ≠ 0 := sub_ne_zero_of_ne (Ne.symm hy)
    have h2 : yi - yj ≠ 0 := sub_ne_zero_of_ne hy
    have hx : (xi - xj) * (py - yj) / (yi - yj) + xj =
        (xj - xi) * (py - yi) / (yj - yi) + xi := by
      field_simp
      ring
    rw [hx, bne_swap]

theorem zip_dropLast_eq_adjPairs :
    ∀ (xs : List Pt) (x : Pt),
      xs.zip ((x :: xs).dropLast) = (adjPairs (x :: xs)).map Prod.swap := by
  intro xs
  induction xs with
  | nil => intro x; simp [adjPairs]
  | cons y t ih =>
    intro x
    simp only [List.dropLast_cons₂, List.zip_cons_cons, adjPairs, List.map_cons,
      Prod.swap_prod_mk]
    exact congrArg _ (ih y)

theorem loopEdges_cons (x : Pt) (xs : List Pt) (l : Pt)
    (hl : (x :: xs).getLast? = some l) :
    loopEdges (x :: xs) = (x, l) :: (adjPairs (x :: xs)).map Prod.swap := by
  simp only [loopEdges, hl, List.zip_cons_cons]
  exact congrArg _ (zip_dropLast_eq_adjPairs xs x)

theorem adjPairs_append_single :
    ∀ (l : List Pt) (a : Pt),
      adjPairs (l ++ [a]) =
        adjPairs l ++ (match l.getLast? with
          | none => []
          | some b => [(b, a)]) := by
  intro l
  induction l with
  | nil => intro a; simp [adjPairs]
  | cons x t ih =>
    intro a
    match t with
    | [] => simp [adjPairs]
    | y :: t' =>
      have h1 : (x :: y :: t') ++ [a] = x :: ((y :: t') ++ [a]) := by simp
      rw [h1]
      have h2 : adjPairs (x :: ((y :: t') ++ [a])) =
          (x, y) :: adjPairs ((y :: t') ++ [a]) := rfl
      rw [h2, ih a, List.getLast?_cons_cons]
      rfl

theorem adjPairs_reverse :
    ∀ (l : List Pt),
      adjPairs l.reverse = ((adjPairs l).map Prod.swap).reverse := by
  intro l
  induction l with
  | nil => simp [adjPairs]
  | cons x t ih =>
    simp only [List.reverse_cons]
    rw [adjPairs_append_single]
    match t with
    | [] => simp [adjPairs]
    | y :: t' =>
      have hlast : (y :: t').reverse.getLast? = some y := by
        rw [List.getLast?_reverse]
        rfl
      rw [hlast, ih]
      simp [adjPairs]

theorem countP_map_swap (point : Pt) (L : List (Pt × Pt)) :
    (L.map Prod.swap).countP (crossesRay point) = L.countP (crossesRay point) := by
  rw [List.countP_map]
  apply List.countP_congr
  intro e _
  rcases e with ⟨a, b⟩
  simp only [Function.comp_apply, Prod.swap_prod_mk]
  rw [crossesRay_swap]

theorem countP_loopEdges_reverse (point : Pt) (polygon : List Pt) :
    (loopEdges polygon.reverse).countP (crossesRay point) =
      (loopEdges polygon).countP (crossesRay point) := by
  match polygon with
  | [] => simp [loopEdges]
  | x :: xs =>
    obtain ⟨l, hl⟩ : ∃ l, (x :: xs).getLast? = some l := by
      cases h : (x :: xs).getLast? with
      | none => exact absurd h (by simp)
      | some l => exact ⟨l, rfl⟩
    obtain ⟨h', t', hrev⟩ : ∃ h' t', (x :: xs).reverse = h' :: t' :=
      List.exists_cons_of_ne_nil (by simp)
    have hhead : h' = l := by
      have hh := List.head?_reverse (x :: xs)
      rw [hrev, hl] at hh
      simpa using hh
    have hlastrev : (h' :: t').getLast? = some x := by
      rw [← hrev, List.getLast?_reverse]
      rfl
    rw [hrev, loopEdges_cons h' t' x hlastrev, loopEdges_cons x xs l hl]
    simp only [List.countP_cons]
    have hA : adjPairs (h' :: t') = ((adjPairs (x :: xs)).map Prod.swap).reverse := by
      rw [← hrev]
      exact adjPairs_reverse (x :: xs)
    rw [hA]
    have hc2 : List.countP (crossesRay point) (((adjPairs (x :: xs)).map Prod.swap).reverse) =
        List.countP (crossesRay point) ((adjPairs (x :: xs)).map Prod.swap) :=
      List.Perm.countP_eq _ (List.reverse_perm _)
    have hcr : crossesRay point (h', x) = crossesRay point (x, l) := by
      rw [hhead]
      exact crossesRay_swap point x l
    rw [countP_map_swap, hc2, hcr]

theorem pointInPolygon_reverse (point : Pt) (polygon : List Pt) :
    pointInPolygon point polygon.reverse = pointInPolygon point polygon := by
  simp only [pointInPolygon]
  rw [foldl_toggle_eq_countP, foldl_toggle_eq_countP, countP_loopEdges_reverse]

/-- C4: `pointInPolygon` on the unit square accepts `(0.5, 0.5)`, rejects
`(2, 2)`, and for every polygon and point, reversing the vertex order
(clockwise vs counter-clockwise) yields the identical inside/outside
answer. -/
theorem c4_pointInPolygon_square_and_orientation :
    pointInPolygon (1/2, 1/2) [(0, 0), (1, 0), (1, 1), (0, 1)] = true ∧
    pointInPolygon (2, 2) [(0, 0), (1, 0), (1, 1), (0, 1)] = false ∧
    ∀ (point : Pt) (polygon : List Pt),
      pointInPolygon point polygon.reverse = pointInPolygon point polygon := by
  refine ⟨?_, ?_, pointInPolygon_reverse⟩
  · norm_num [pointInPolygon, loopEdges, crossesRay, List.foldl]
  · norm_num [pointInPolygon, loopEdges, crossesRay, List.foldl]

/-- C7: a degenerate (horizontal) polygon edge, one whose endpoints have equal
latitude, never registers a crossing in `pointInPolygon`; moreover whenever
the straddle test (the first conjunct of the crossing test, the guard under
JS short-circuit `&&`) succeeds, the divisor `yj - yi` of the crossing
test's division is nonzero, so the division is never a division by zero. -/
theorem c7_horizontal_edges_safe (px py xi yi xj yj : ℚ) :
    (yi = yj → crossesRay (px, py) ((xi, yi), (xj, yj)) = false) ∧
    ((decide (yi > py) != decide (yj > py)) = true → yj - yi ≠ 0) := by
  constructor
  · intro h
    subst h
    simp [crossesRay, bne_self_eq_false]
  · intro h heq
    have hy : yj = yi := by linarith [sub_eq_zero.mp heq]
    subst hy
    simp [bne_self_eq_false] at h

/-- Witness for C7 at a concrete horizontal edge and a concrete straddling
edge. -/
theorem c7_witness :
    crossesRay ((0 : ℚ), 0) (((0 : ℚ), 1), ((5 : ℚ), 1)) = false ∧
    ((3 : ℚ) - 1 ≠ 0) := by
  constructor
  · exact (c7_horizontal_edges_safe 0 0 0 1 5 1).1 rfl
  · exact (c7_horizontal_edges_safe 0 2 0 1 5 3).2 (by decide)

/-- C6: below 1000 the format is the nearest integer (half a meter away at
most) with " m"; at or above 1000 it is the value divided by 1000 rounded to
the nearest tenth and shown with one decimal place and " km"; in particular
999 gives "999 m", 1000 gives "1.0 km" and 1500 gives "1.5 km". -/
theorem c6_formatDistance (meters : ℚ) :
    (meters < 1000 →
      ∃ k : ℤ, |meters - k| ≤ 1/2 ∧ formatDistance meters = toString k ++ " m") ∧
    (1000 ≤ meters →
      ∃ k : ℤ, |meters / 100 - k| ≤ 1/2 ∧
        formatDistance meters =
          toString (k / 10) ++ "." ++ toString (k % 10) ++ " km") ∧
    formatDistance 999 = "999 m" ∧
    formatDistance 1000 = "1.0 km" ∧
    formatDistance 1500 = "1.5 km" := by
  refine ⟨?_, ?_, ?_, ?_, ?_⟩
  · intro h
    refine ⟨jsRound meters, ?_, ?_⟩
    · rw [jsRound]
      have hle : (⌊meters + 1/2⌋ : ℚ) ≤ meters + 1/2 := Int.floor_le _
      have hlt : meters + 1/2 < ⌊meters + 1/2⌋ + 1 := Int.lt_floor_add_one _
      rw [abs_le]
      constructor <;> linarith
    · rw [formatDistance, if_pos h]
  · intro h
    refine ⟨⌊meters / 1000 * 10 + 1/2⌋, ?_, ?_⟩
    · have hq : meters / 1000 * 10 = meters / 100 := by ring
      rw [← hq]
      have hle : (⌊meters / 1000 * 10 + 1/2⌋ : ℚ) ≤ meters / 1000 * 10 + 1/2 :=
        Int.floor_le _
      have hlt : meters / 1000 * 10 + 1/2 < ⌊meters / 1000 * 10 + 1/2⌋ + 1 :=
        Int.lt_floor_add_one _
      rw [abs_le]
      constructor <;> linarith
    · rw [formatDistance, if_neg (by linarith), toFixed1]
  · have hk : jsRound 999 = 999 := by
      rw [jsRound]
      norm_num
    rw [formatDistance, if_pos (by norm_num), hk]
    rfl
  · have hk : ⌊(1000 : ℚ) / 1000 * 10 + 1/2⌋ = 10 := by norm_num
    rw [formatDistance, if_neg (by norm_num), toFixed1]
    rw [hk]
    rfl
  · have hk : ⌊(1500 : ℚ) / 1000 * 10 + 1/2⌋ = 15 := by norm_num
    rw [formatDistance, if_neg (by norm_num), toFixed1]
    rw [hk]
    rfl

/-- Witness for C6 applied at the concrete inputs 250 m and 1500 m. -/
theorem c6_witness :
    (∃ k : ℤ, |(250 : ℚ) - k| ≤ 1/2 ∧ formatDistance 250 = toString k ++ " m") ∧
    (∃ k : ℤ, |(1500 : ℚ) / 100 - k| ≤ 1/2 ∧
      formatDistance 1500 =
        toString (k / 10) ++ "." ++ toString (k % 10) ++ " km") :=
  ⟨(c6_formatDistance 250).1 (by norm_num),
   (c6_formatDistance 1500).2.1 (by norm_num)⟩

theorem haversine_symm (lat1 lon1 lat2 lon2 : ℝ) :
    haversineDistance lat1 lon1 lat2 lon2 = haversineDistance lat2 lon2 lat1 lon1 := by
  simp only [haversineDistance]
  have h1 : toRad (lat1 - lat2) / 2 = -(toRad (lat2 - lat1) / 2) := by
    simp only [toRad]
    ring
  have h2 : toRad (lon1 - lon2) / 2 = -(toRad (lon2 - lon1) / 2) := by
    simp only [toRad]
    ring
  rw [h1, h2, Real.sin_neg, Real.sin_neg]
  ring_nf

theorem atan2_zero_one : atan2 0 1 = 0 := by
  rw [atan2, if_pos (by norm_num : (0:ℝ) < 1)]
  norm_num [Real.arctan_zero]

theorem haversine_self (lat lon : ℝ) : haversineDistance lat lon lat lon = 0 := by
  simp only [haversineDistance, sub_self]
  have h0 : toRad 0 = 0 := by simp [toRad]
  rw [h0]
  norm_num [Real.sin_zero, Real.sqrt_zero, Real.sqrt_one, atan2_zero_one]

/-- C5 counterexample: two distinct coordinate pairs at the north pole
(latitude 90, longitudes 0 and 10) are at haversine distance exactly 0, so
the distance being zero does not imply the coordinate pairs are equal. -/
theorem c5_counterexample :
    haversineDistance 90 0 90 10 = 0 ∧
    ((90 : ℝ), (0 : ℝ)) ≠ ((90 : ℝ), (10 : ℝ)) := by
  constructor
  · simp only [haversineDistance, sub_self]
    have h0 : toRad 0 = 0 := by simp [toRad]
    have h90 : toRad 90 = Real.pi / 2 := by
      simp only [toRad]
      ring
    rw [h0, h90]
    norm_num [Real.sin_zero, Real.cos_pi_div_two, Real.sqrt_zero, Real.sqrt_one,
      atan2_zero_one]
  · intro h
    have := congrArg Prod.snd h
    norm_num at this

theorem cos_toRad_pos {lat : ℝ} (h : |lat| < 90) : 0 < Real.cos (toRad lat) := by
  rcases abs_lt.mp h with ⟨hl, hr⟩
  apply Real.cos_pos_of_mem_Ioo
  constructor
  · simp only [toRad]
    nlinarith [Real.pi_pos]
  · simp only [toRad]
    nlinarith [Real.pi_pos]

theorem sin_half_toRad_eq_zero {x : ℝ} (hb : |x| < 360)
    (hs : Real.sin (toRad x / 2) = 0) : x = 0 := by
  rcases abs_lt.mp hb with ⟨hl, hr⟩
  have hrw : toRad x / 2 = x * (Real.pi / 360) := by
    simp only [toRad]
    ring
  rw [hrw] at hs
  have hlo : -Real.pi < x * (Real.pi / 360) := by nlinarith [Real.pi_pos]
  have hhi : x * (Real.pi / 360) < Real.pi := by nlinarith [Real.pi_pos]
  have hx0 : x * (Real.pi / 360) = 0 :=
    (Real.sin_eq_zero_iff_of_lt_of_lt hlo hhi).mp hs
  rcases mul_eq_zero.mp hx0 with h | h
  · exact h
  · exact absurd h (by positivity)

theorem haversine_eq_zero_imp {lat1 lon1 lat2 lon2 : ℝ}
    (h1 : |lat1| < 90) (h2 : |lat2| < 90) (h3 : |lon2 - lon1| < 360)
    (hz : haversineDistance lat1 lon1 lat2 lon2 = 0) :
    lat1 = lat2 ∧ lon1 = lon2 := by
  simp only [haversineDistance] at hz
  set s1 : ℝ := Real.sin (toRad (lat2 - lat1) / 2) ^ 2 with hs1
  set s2 : ℝ := Real.sin (toRad (lon2 - lon1) / 2) ^ 2 with hs2
  set a : ℝ := s1 + Real.cos (toRad lat1) * Real.cos (toRad lat2) * s2 with ha
  have hc1 : 0 < Real.cos (toRad lat1) := cos_toRad_pos h1
  have hc2 : 0 < Real.cos (toRad lat2) := cos_toRad_pos h2
  have hs1nn : 0 ≤ s1 := sq_nonneg _
  have hs2nn : 0 ≤ s2 := sq_nonneg _
  have hann : 0 ≤ a := by
    have : 0 ≤ Real.cos (toRad lat1) * Real.cos (toRad lat2) * s2 := by positivity
    linarith
  have hat : atan2 (Real.sqrt a) (Real.sqrt (1 - a)) = 0 := by
    rcases mul_eq_zero.mp hz with h | h
    · norm_num at h
    · rcases mul_eq_zero.mp h with h | h
      · norm_num at h
      · exact h
  have ha0 : a = 0 := by
    by_contra hne
    have hapos : 0 < a := lt_of_le_of_ne hann (Ne.symm hne)
    have hsq : 0 < Real.sqrt a := Real.sqrt_pos.mpr hapos
    by_cases h1a : 0 < 1 - a
    · have hsq1 : 0 < Real.sqrt (1 - a) := Real.sqrt_pos.mpr h1a
      rw [atan2, if_pos hsq1] at hat
      have := Real.arctan_eq_zero_iff.mp hat
      rcases div_eq_zero_iff.mp this with h | h
      · exact absurd h (ne_of_gt hsq)
      · exact absurd h (ne_of_gt hsq1)
    · have hsq1 : Real.sqrt (1 - a) = 0 := by
        rw [Real.sqrt_eq_zero']
        linarith
      rw [atan2, hsq1] at hat
      rw [if_neg (by norm_num), if_neg (by simp), if_neg (by simp),
        if_pos ⟨rfl, hsq⟩] at hat
      exact absurd hat (by positivity)
  have hz1 : s1 = 0 := by
    have hp : 0 ≤ Real.cos (toRad lat1) * Real.cos (toRad lat2) * s2 := by positivity
    have := ha.symm
    linarith [ha0]
  have hz2 : s2 = 0 := by
    have hcc : 0 < Real.cos (toRad lat1) * Real.cos (toRad lat2) := by positivity
    have hprod : Real.cos (toRad lat1) * Real.cos (toRad lat2) * s2 = 0 := by
      linarith [ha0, hz1]
    rcases mul_eq_zero.mp hprod with h | h
    · exact absurd h (ne_of_gt hcc)
    · exact h
  have hlat : lat2 - lat1 = 0 := by
    apply sin_half_toRad_eq_zero (x := lat2 - lat1)
    · rcases abs_lt.mp h1 with ⟨g1, g2⟩
      rcases abs_lt.mp h2 with ⟨g3, g4⟩
      rw [abs_lt]
      constructor <;> linarith
    · have := pow_eq_zero_iff (n := 2) (by norm_num) |>.mp hz1
      exact this
  have hlon : lon2 - lon1 = 0 := by
    apply sin_half_toRad_eq_zero (x := lon2 - lon1) h3
    have := pow_eq_zero_iff (n := 2) (by norm_num) |>.mp hz2
    exact this
  constructor <;> linarith

/-- C5 amended: the haversine distance is symmetric in its two coordinates
and is zero for equal coordinates, but zero distance only forces the
coordinates to be equal away from the degenerate sphere identifications:
when both latitudes are strictly inside (-90, 90) and the longitudes differ
by strictly less than 360 degrees. -/
theorem c5_haversine_symm_zero (lat1 lon1 lat2 lon2 : ℝ) :
    haversineDistance lat1 lon1 lat2 lon2 = haversineDistance lat2 lon2 lat1 lon1 ∧
    haversineDistance lat1 lon1 lat1 lon1 = 0 ∧
    (|lat1| < 90 → |lat2| < 90 → |lon2 - lon1| < 360 →
      haversineDistance lat1 lon1 lat2 lon2 = 0 → lat1 = lat2 ∧ lon1 = lon2) :=
  ⟨haversine_symm lat1 lon1 lat2 lon2, haversine_self lat1 lon1,
   fun h1 h2 h3 hz => haversine_eq_zero_imp h1 h2 h3 hz⟩

/-- Witness for the amended C5 at concrete coordinates. -/
theorem c5_witness :
    haversineDistance 1 2 3 4 = haversineDistance 3 4 1 2 ∧
    haversineDistance 5 6 5 6 = 0 ∧
    ((10 : ℝ) = 10 ∧ (20 : ℝ) = 20) :=
  ⟨(c5_haversine_symm_zero 1 2 3 4).1,
   (c5_haversine_symm_zero 5 6 5 6).2.1,
   (c5_haversine_symm_zero 10 20 10 20).2.2 (by norm_num) (by norm_num)
     (by norm_num) (haversine_self 10 20)⟩

theorem rank_le_trans {κ : Type} [LinearOrder κ] :
    ∀ (a b c : School × κ), decide (a.2 ≤ b.2) → decide (b.2 ≤ c.2) →
      decide (a.2 ≤ c.2) := by
  intro a b c hab hbc
  exact decide_eq_true (le_trans (of_decide_eq_true hab) (of_decide_eq_true hbc))

theorem rank_le_total {κ : Type} [LinearOrder κ] :
    ∀ (a b : School × κ), decide (a.2 ≤ b.2) || decide (b.2 ≤ a.2) := by
  intro a b
  rcases le_total a.2 b.2 with h | h
  · simp [h]
  · simp [h]

/-- C3: for a fixed resolved coordinate, polygon and candidate list, the
ranked result is (as a multiset) exactly the annotated list of candidates
that pass `pointInPolygon`; every entry carries the haversine distance of
its school from the resolved coordinate; the result is sorted ascending by
that distance; the sort is stable with respect to the candidate iteration
order (any two annotated survivors appearing in order with nondecreasing
keys, in particular ties, stay in that order); and equal inputs always give
the equal ranked output. -/
theorem c3_filter_rank_pipeline (lat lng : ℚ) (polygon : List Pt)
    (schools : List School) :
    List.Perm (searchSchools lat lng polygon schools)
      ((schools.filter (fun s => pointInPolygon (s.lng, s.lat) polygon)).map
        (fun s => (s, haversineDistance (lat : ℝ) (lng : ℝ) (s.lat : ℝ) (s.lng : ℝ)))) ∧
    (∀ p ∈ searchSchools lat lng polygon schools,
      p.1 ∈ schools ∧ pointInPolygon (p.1.lng, p.1.lat) polygon = true ∧
        p.2 = haversineDistance (lat : ℝ) (lng : ℝ) (p.1.lat : ℝ) (p.1.lng : ℝ)) ∧
    List.Pairwise (fun p q => p.2 ≤ q.2) (searchSchools lat lng polygon schools) ∧
    (∀ a b : School × ℝ,
      List.Sublist [a, b]
        ((schools.filter (fun s => pointInPolygon (s.lng, s.lat) polygon)).map
          (fun s => (s, haversineDistance (lat : ℝ) (lng : ℝ) (s.lat : ℝ) (s.lng : ℝ)))) →
      a.2 ≤ b.2 →
      List.Sublist [a, b] (searchSchools lat lng polygon schools)) ∧
    (∀ (lat2 lng2 : ℚ) (polygon2 : List Pt) (schools2 : List School),
      lat = lat2 → lng = lng2 → polygon = polygon2 → schools = schools2 →
      searchSchools lat lng polygon schools =
        searchSchools lat2 lng2 polygon2 schools2) := by
  refine ⟨List.mergeSort_perm _ _, ?_, ?_, ?_, ?_⟩
  · intro p hp
    have hp2 : p ∈ (schools.filter
        (fun s => pointInPolygon (s.lng, s.lat) polygon)).map
        (fun s => (s, haversineDistance (lat : ℝ) (lng : ℝ) (s.lat : ℝ) (s.lng : ℝ))) :=
      (List.mergeSort_perm _ _).mem_iff.mp hp
    rcases List.mem_map.mp hp2 with ⟨s, hs, hps⟩
    rcases List.mem_filter.mp hs with ⟨hmem, hpass⟩
    subst hps
    exact ⟨hmem, hpass, rfl⟩
  · have h := List.sorted_mergeSort
      rank_le_trans rank_le_total
      ((schools.filter (fun s => pointInPolygon (s.lng, s.lat) polygon)).map
        (fun s => (s, haversineDistance (lat : ℝ) (lng : ℝ) (s.lat : ℝ) (s.lng : ℝ))))
    exact h.imp (fun hab => of_decide_eq_true hab)
  · intro a b hsub hab
    exact List.pair_sublist_mergeSort rank_le_trans rank_le_total
      (decide_eq_true hab) hsub
  · intro lat2 lng2 polygon2 schools2 e1 e2 e3 e4
    subst e1
    subst e2
    subst e3
    subst e4
    rfl

/-- Witness for C3: two candidates at the same coordinate (a distance tie)
inside a square polygon stay in iteration order in the ranked output. -/
theorem c3_witness :
    List.Sublist [(schoolAlpha, originDist), (schoolBeta, originDist)]
      (searchSchools 0 0 squarePoly [schoolAlpha, schoolBeta]) := by
  have hin : pointInPolygon ((0 : ℚ), (0 : ℚ)) squarePoly = true := by
    norm_num [pointInPolygon, loopEdges, crossesRay, List.foldl, squarePoly]
  have hmap : ([schoolAlpha, schoolBeta].filter
      (fun s => pointInPolygon (s.lng, s.lat) squarePoly)).map
      (fun s => (s, haversineDistance ((0 : ℚ) : ℝ) ((0 : ℚ) : ℝ) (s.lat : ℝ) (s.lng : ℝ))) =
      [(schoolAlpha, originDist), (schoolBeta, originDist)] := by
    simp only [List.filter_cons, List.filter_nil, schoolAlpha, schoolBeta, hin,
      if_true, List.map_cons, List.map_nil, originDist]
  exact (c3_filter_rank_pipeline 0 0 squarePoly [schoolAlpha, schoolBeta]).2.2.2.1
    (schoolAlpha, originDist) (schoolBeta, originDist)
    (by rw [hmap]) le_rfl

/-- C9 counterexample: a successful response whose first polygon ring has
only two (distinct) vertices is not treated as invalid — the pipeline
filters and ranks with it and ends in a successful `done` state (here with
zero survivors), not in a failure. -/
theorem c9_counterexample :
    runSearch "q" (.success originGeo) (.success degenerateIso) [schoolAlpha] =
      .done [] ∧
    (runSearch "q" (.success originGeo) (.success degenerateIso)
      [schoolAlpha]).isFailureState = false := by
  have hout : pointInPolygon ((0 : ℚ), (0 : ℚ)) [(0, 0), (5, 5)] = false := by
    norm_num [pointInPolygon, loopEdges, crossesRay, List.foldl]
  have hmain : runSearch "q" (.success originGeo) (.success degenerateIso)
      [schoolAlpha] = .done [] := by
    rw [runSearch]
    rw [if_neg (by decide)]
    show SubmitResult.done (searchSchools 0 0 [(0, 0), (5, 5)] [schoolAlpha]) = .done []
    have hfil : [schoolAlpha].filter
        (fun s => pointInPolygon (s.lng, s.lat) [(0, 0), (5, 5)]) = [] := by
      rw [List.filter_eq_nil_iff]
      intro a ha
      rw [List.mem_singleton] at ha
      subst ha
      show ¬ pointInPolygon (schoolAlpha.lng, schoolAlpha.lat) [(0, 0), (5, 5)] = true
      rw [show pointInPolygon (schoolAlpha.lng, schoolAlpha.lat) [(0, 0), (5, 5)] = false
        from hout]
      exact Bool.false_ne_true
    simp only [searchSchools, rankSchools, hfil, List.map_nil, List.mergeSort_nil]
  exact ⟨hmain, by rw [hmain]; rfl⟩

/-- C9 amended: the pipeline performs no vertex-count validation.
`fetchIsochrone` accepts any body with a nonempty feature list, and
whenever the first feature carries a first ring — of any length — the
pipeline proceeds to filter and rank with that ring and delivers a `done`
result; the only degenerate-region failure is the generic `TypeError` path
when the first feature has no ring at all. -/
theorem c9_amended (query : String) (hq : ¬ jsTrim query = "")
    (geoResp : HttpResult GeoData) (coords : Coords)
    (hg : geocodeAddress geoResp = .ok coords)
    (isoResp : HttpResult IsoData) (iso : IsoData)
    (hi : fetchIsochrone isoResp = .ok iso)
    (feat : IsoFeature) (hf : (iso.features.getD []).head? = some feat)
    (ring : List Pt) (hr : feat.geometry.coordinates.head? = some ring)
    (schools : List School) :
    runSearch query geoResp isoResp schools =
      .done (searchSchools coords.lat coords.lng ring schools) := by
  rw [runSearch, if_neg hq, hg]
  show (match fetchIsochrone isoResp with
    | .error e => SubmitResult.failed (handleErrorMessage e)
    | .ok iso =>
      match (iso.features.getD []).head? with
      | none =>
        SubmitResult.failed (handleErrorMessage
          ⟨"TypeError", "Cannot read properties of undefined (reading 'geometry')"⟩)
      | some feat =>
        match feat.geometry.coordinates.head? with
        | none =>
          SubmitResult.failed (handleErrorMessage
            ⟨"TypeError", "Cannot read properties of undefined (reading 'length')"⟩)
        | some ring => SubmitResult.done (searchSchools coords.lat coords.lng ring schools)) =
    SubmitResult.done (searchSchools coords.lat coords.lng ring schools)
  rw [hi]
  show (match (iso.features.getD []).head? with
    | none =>
      SubmitResult.failed (handleErrorMessage
        ⟨"TypeError", "Cannot read properties of undefined (reading 'geometry')"⟩)
    | some feat =>
      match feat.geometry.coordinates.head? with
      | none =>
        SubmitResult.failed (handleErrorMessage
          ⟨"TypeError", "Cannot read properties of undefined (reading 'length')"⟩)
      | some ring => SubmitResult.done (searchSchools coords.lat coords.lng ring schools)) =
    SubmitResult.done (searchSchools coords.lat coords.lng ring schools)
  rw [hf]
  show (match feat.geometry.coordinates.head? with
    | none =>
      SubmitResult.failed (handleErrorMessage
        ⟨"TypeError", "Cannot read properties of undefined (reading 'length')"⟩)
    | some ring => SubmitResult.done (searchSchools coords.lat coords.lng ring schools)) =
    SubmitResult.done (searchSchools coords.lat coords.lng ring schools)
  rw [hr]

/-- Witness for the amended C9 at the concrete degenerate two-vertex ring. -/
theorem c9_witness :
    runSearch "q" (.success originGeo) (.success degenerateIso) [schoolAlpha] =
      .done (searchSchools 0 0 [(0, 0), (5, 5)] [schoolAlpha]) :=
  c9_amended "q" (by decide) (.success originGeo) ⟨0, 0, "Origin"⟩ rfl
    (.success degenerateIso) degenerateIso rfl ⟨⟨[[(0, 0), (5, 5)]]⟩⟩ rfl
    [(0, 0), (5, 5)] rfl [schoolAlpha]

/-- C8 counterexample: a transport-level `fetch` failure does not give an
empty suggestion list — `fetchSuggestions` rejects (the `TypeError`
propagates out of the uncaught async debounce callback). -/
theorem c8_counterexample :
    fetchSuggestions .transportError = .error ⟨"TypeError", "Failed to fetch"⟩ ∧
    fetchSuggestions .transportError ≠ .ok [] := by
  refine ⟨rfl, ?_⟩
  intro h
  simp [fetchSuggestions] at h

/-- C8 amended: a non-success HTTP status or a missing `features` field
degrades to an empty suggestion list, and any parsed body yields a plain
`ok` list — but a transport failure propagates as a rejected promise out of
`fetchSuggestions` (and the debounce callback does not catch it, so no
render and no user-visible status change happens for that request). -/
theorem c8_suggestions_degrade :
    (∀ status : Nat, fetchSuggestions (.httpError status) = .ok []) ∧
    fetchSuggestions (.success ⟨none⟩) = .ok [] ∧
    (∀ d : SuggestData, ∃ l : List Suggestion,
      fetchSuggestions (.success d) = .ok l) ∧
    fetchSuggestions .transportError = .error ⟨"TypeError", "Failed to fetch"⟩ :=
  ⟨fun _ => rfl, rfl, fun _d => ⟨_, rfl⟩, rfl⟩

theorem merge_nil_inv {α : Type} {l1 l2 : List α} (h : Merge l1 l2 []) :
    l1 = [] ∧ l2 = [] := by
  cases h
  exact ⟨rfl, rfl⟩

theorem merge_getLast {α : Type} {l1 l2 zs : List α} (h : Merge l1 l2 zs) :
    zs = [] ∨ ∃ z, zs.getLast? = some z ∧
      (l1.getLast? = some z ∨ l2.getLast? = some z) := by
  induction h with
  | nil => exact Or.inl rfl
  | @left x xs ys zs0 m ih =>
    rcases ih with hnil | ⟨z, hz, hor⟩
    · subst hnil
      obtain ⟨hx, hy⟩ := merge_nil_inv m
      subst hx
      subst hy
      exact Or.inr ⟨x, by simp, Or.inl (by simp)⟩
    · cases zs0 with
      | nil => simp at hz
      | cons w ws =>
        refine Or.inr ⟨z, ?_, ?_⟩
        · rw [List.getLast?_cons_cons]
          exact hz
        · rcases hor with h1 | h1
          · cases xs with
            | nil => simp at h1
            | cons b bs =>
              exact Or.inl (by rw [List.getLast?_cons_cons]; exact h1)
          · exact Or.inr h1
  | @right y xs ys zs0 m ih =>
    rcases ih with hnil | ⟨z, hz, hor⟩
    · subst hnil
      obtain ⟨hx, hy⟩ := merge_nil_inv m
      subst hx
      subst hy
      exact Or.inr ⟨y, by simp, Or.inr (by simp)⟩
    · cases zs0 with
      | nil => simp at hz
      | cons w ws =>
        refine Or.inr ⟨z, ?_, ?_⟩
        · rw [List.getLast?_cons_cons]
          exact hz
        · rcases hor with h1 | h1
          · exact Or.inl h1
          · cases ys with
            | nil => simp at h1
            | cons b bs =>
              exact Or.inr (by rw [List.getLast?_cons_cons]; exact h1)

theorem foldl_submitStep_last {ω : Type} :
    ∀ (acts : List (SubmitAction ω)) (st : Option (Nat × ω)) (r : Nat) (o : ω),
      acts.getLast? = some (.finish r o) →
      acts.foldl submitStep st = some (r, o) := by
  intro acts
  induction acts with
  | nil => intro st r o h; simp at h
  | cons a t ih =>
    intro st r o h
    cases t with
    | nil =>
      have ha : a = .finish r o := by
        have : some a = some (SubmitAction.finish r o) := h
        exact Option.some.inj this
      subst ha
      rfl
    | cons b t' =>
      rw [List.getLast?_cons_cons] at h
      rw [List.foldl_cons]
      exact ih (submitStep st a) r o h

theorem submitRun_getLast {ω : Type} (r : Nat) (o : ω) :
    (submitRun r o).getLast? = some (.finish r o) := rfl

/-- C1 amended: for every event-loop interleaving of two submit runs, the
displayed result/error state is the outcome of whichever run's display
segment executed last (last-delivery-wins) — not necessarily the most
recently submitted run, since the listener discards nothing. -/
theorem c1_last_delivery_wins {ω : Type} (oA oB : ω) (zs : List (SubmitAction ω))
    (h : Merge (submitRun 0 oA) (submitRun 1 oB) zs) :
    (zs.getLast? = some (.finish 0 oA) ∧ execSubmit zs = some (0, oA)) ∨
    (zs.getLast? = some (.finish 1 oB) ∧ execSubmit zs = some (1, oB)) := by
  rcases merge_getLast h with hnil | ⟨z, hz, hor⟩
  · subst hnil
    have := (merge_nil_inv h).1
    simp [submitRun] at this
  · rcases hor with h1 | h1
    · left
      rw [submitRun_getLast] at h1
      have hzv : z = .finish 0 oA := (Option.some.inj h1).symm
      subst hzv
      exact ⟨hz, foldl_submitStep_last zs none 0 oA hz⟩
    · right
      rw [submitRun_getLast] at h1
      have hzv : z = .finish 1 oB := (Option.some.inj h1).symm
      subst hzv
      exact ⟨hz, foldl_submitStep_last zs none 1 oB hz⟩

/-- C1 counterexample: the interleaving `staleSubmitTrace` is a legal
event-loop schedule of two submit runs in which run 1 starts before run 0
delivers, yet the final displayed state is run 0's outcome, not run 1's —
the superseded run's response is delivered after the newer run started
(and even after it finished). -/
theorem c1_counterexample :
    Merge (submitRun 0 (SubmitResult.failed "boom"))
      (submitRun 1 (SubmitResult.done [])) staleSubmitTrace ∧
    execSubmit staleSubmitTrace = some (0, SubmitResult.failed "boom") ∧
    execSubmit staleSubmitTrace ≠ some (1, SubmitResult.done []) := by
  refine ⟨.left (.right (.right (.left .nil))), rfl, ?_⟩
  intro hcon
  have := congrArg (fun x => Option.map Prod.fst x) hcon
  simp [execSubmit, submitStep, staleSubmitTrace] at this

/-- Witness for the amended C1 at the concrete stale interleaving. -/
theorem c1_witness :
    (staleSubmitTrace.getLast? = some (.finish 0 (SubmitResult.failed "boom")) ∧
      execSubmit staleSubmitTrace = some (0, SubmitResult.failed "boom")) ∨
    (staleSubmitTrace.getLast? = some (.finish 1 (SubmitResult.done [])) ∧
      execSubmit staleSubmitTrace = some (1, SubmitResult.done [])) :=
  c1_last_delivery_wins (SubmitResult.failed "boom") (SubmitResult.done [])
    staleSubmitTrace (.left (.right (.right (.left .nil))))

/-- C2 counterexample: `staleAutoTrace` is a legal schedule of two debounce
cycles where cycle 1 starts after cycle 0's request was issued, yet cycle
0's suggestions are the ones left rendered. -/
theorem c2_counterexample :
    Merge (autoCycle 0 ["old"]) (autoCycle 1 ["new"]) staleAutoTrace ∧
    (execAutoFlow staleAutoTrace).rendered = some (0, ["old"]) ∧
    (execAutoFlow staleAutoTrace).rendered ≠ some (1, ["new"]) := by
  refine ⟨.left (.left (.right (.right (.right (.left .nil))))), rfl, by decide⟩

theorem foldl_autoFlowStep_rendered :
    ∀ (acts : List AutoAction) (st : AutoFlow),
      (acts.foldl autoFlowStep st).rendered = st.rendered ∨
      ∃ r s, AutoAction.render r s ∈ acts ∧
        (acts.foldl autoFlowStep st).rendered = some (r, s) := by
  intro acts
  induction acts with
  | nil => intro st; exact Or.inl rfl
  | cons a t ih =>
    intro st
    rw [List.foldl_cons]
    rcases ih (autoFlowStep st a) with h | ⟨r, s, hmem, heq⟩
    · rw [h]
      cases a with
      | key r => exact Or.inl rfl
      | fire r =>
        by_cases hc : st.pending = some r
        · exact Or.inl (by simp [autoFlowStep, hc])
        · exact Or.inl (by simp [autoFlowStep, hc])
      | render r s =>
        by_cases hc : r ∈ st.inflight
        · exact Or.inr ⟨r, s, List.mem_cons_self _ _, by simp [autoFlowStep, hc]⟩
        · exact Or.inl (by simp [autoFlowStep, hc])
    · exact Or.inr ⟨r, s, List.mem_cons_of_mem a hmem, heq⟩

/-- C2 amended: a keystroke cancels only a debounce timer that has not yet
fired — in the schedule where cycle 1's keystroke precedes cycle 0's timer,
cycle 0 never renders and cycle 1's suggestions win.  But once a request
has been issued, its resolution renders unconditionally: in the schedule
where cycle 1's keystroke arrives after cycle 0's timer fired and cycle 0
resolves last, the stale cycle-0 suggestions are rendered
(last-resolution-wins, not last-keystroke-wins).  In every schedule,
whatever is rendered is the payload of some render event that occurred. -/
theorem c2_debounce_cancel_and_stale_render :
    (∀ sA sB : List String,
      (execAutoFlow [.key 0, .key 1, .fire 0, .fire 1,
        .render 0 sA, .render 1 sB]).rendered = some (1, sB)) ∧
    (∀ sA sB : List String,
      (execAutoFlow [.key 0, .fire 0, .key 1, .fire 1,
        .render 1 sB, .render 0 sA]).rendered = some (0, sA)) ∧
    (∀ acts : List AutoAction,
      (execAutoFlow acts).rendered = none ∨
      ∃ r s, AutoAction.render r s ∈ acts ∧
        (execAutoFlow acts).rendered = some (r, s)) := by
  refine ⟨fun sA sB => rfl, fun sA sB => rfl, fun acts => ?_⟩
  exact foldl_autoFlowStep_rendered acts ⟨none, [], none⟩

/-- C10 counterexample: after `staleIdxTrace` the rendered list is empty
but the active index is 0, outside the claimed range [-1, n-1] = [-1, -1]:
the below-threshold input clear hides and empties the list without
resetting the index. -/
theorem c10_counterexample :
    (runUi staleIdxTrace).activeIdx = 0 ∧
    (runUi staleIdxTrace).rendered.length = 0 ∧
    ¬ (runUi staleIdxTrace).activeIdx ≤
      ((runUi staleIdxTrace).rendered.length : Int) - 1 := by
  refine ⟨rfl, rfl, by decide⟩

theorem length_one_le_of_isEmpty_false {l : List String} (h : l.isEmpty = false) :
    1 ≤ (l.length : Int) := by
  cases l with
  | nil => simp [List.isEmpty] at h
  | cons a t =>
    have : 1 ≤ (a :: t).length := by simp [List.length_cons]
    exact_mod_cast this

theorem uiStep_preserves_inv (st : AutoUi) (e : UiEvent) (h : uiInv st) :
    uiInv (uiStep st e) := by
  cases e with
  | input n =>
    by_cases hc : n < 3
    · intro hh
      simp [uiStep, hc] at hh
    · simpa [uiStep, hc] using h
  | suggestResolve s =>
    by_cases hc : s.isEmpty
    · intro hh
      simp [uiStep, renderSuggestions, hc] at hh
    · intro _
      have hlen := length_one_le_of_isEmpty_false (l := s) (by simpa using hc)
      constructor
      · simp [uiStep, renderSuggestions, hc]
      · simp only [uiStep, renderSuggestions, hc, Bool.false_eq_true, if_false]
        omega
  | arrowDown =>
    by_cases hg : (st.hidden || st.rendered.isEmpty) = true
    · simpa [uiStep, hg] using h
    · have hhid : st.hidden = false := by
        rcases Bool.or_eq_false_iff.mp (Bool.not_eq_true _ |>.mp hg) with ⟨h1, _⟩
        exact h1
      have hemp : st.rendered.isEmpty = false := by
        rcases Bool.or_eq_false_iff.mp (Bool.not_eq_true _ |>.mp hg) with ⟨_, h2⟩
        exact h2
      have hlen := length_one_le_of_isEmpty_false hemp
      rcases h hhid with ⟨hlo, hhi⟩
      intro _
      constructor
      · simp only [uiStep, hg, Bool.false_eq_true, if_false]
        omega
      · simp only [uiStep, hg, Bool.false_eq_true, if_false]
        omega
  | arrowUp =>
    by_cases hg : (st.hidden || st.rendered.isEmpty) = true
    · simpa [uiStep, hg] using h
    · have hhid : st.hidden = false := by
        rcases Bool.or_eq_false_iff.mp (Bool.not_eq_true _ |>.mp hg) with ⟨h1, _⟩
        exact h1
      have hemp : st.rendered.isEmpty = false := by
        rcases Bool.or_eq_false_iff.mp (Bool.not_eq_true _ |>.mp hg) with ⟨_, h2⟩
        exact h2
      have hlen := length_one_le_of_isEmpty_false hemp
      rcases h hhid with ⟨hlo, hhi⟩
      intro _
      constructor
      · simp only [uiStep, hg, Bool.false_eq_true, if_false]
        omega
      · simp only [uiStep, hg, Bool.false_eq_true, if_false]
        omega
  | enterKey =>
    by_cases hg : (st.hidden || st.rendered.isEmpty) = true
    · simpa [uiStep, hg] using h
    · by_cases hidx : 0 ≤ st.activeIdx
      · intro hh
        simp [uiStep, hg, hidx, selectSuggestion] at hh
      · simpa [uiStep, hg, hidx] using h
  | escapeKey =>
    by_cases hg : (st.hidden || st.rendered.isEmpty) = true
    · simpa [uiStep, hg] using h
    · intro hh
      simp [uiStep, hg] at hh
  | blurFire =>
    intro hh
    simp [uiStep] at hh
  | submitClear =>
    intro hh
    simp [uiStep] at hh

theorem runUi_inv_aux :
    ∀ (events : List UiEvent) (st : AutoUi), uiInv st →
      uiInv (events.foldl uiStep st) := by
  intro events
  induction events with
  | nil => intro st h; exact h
  | cons e t ih =>
    intro st h
    rw [List.foldl_cons]
    exact ih _ (uiStep_preserves_inv st e h)

/-- C10 amended: the range invariant -1 ≤ index ≤ n-1 holds whenever the
dropdown is visible (the below-threshold clear and the submit clear can
leave a stale index, but only while the list is hidden and until the next
render resets it); rendering a suggestion list and the blur handler always
reset the index to -1; Escape resets it whenever the keydown guard lets it
act; ArrowDown clamps to at most n-1 and ArrowUp to at least 0. -/
theorem c10_index_invariants :
    (∀ events : List UiEvent, (runUi events).hidden = false →
      -1 ≤ (runUi events).activeIdx ∧
        (runUi events).activeIdx < ((runUi events).rendered.length : Int)) ∧
    (∀ (s : List String) (st : AutoUi), (renderSuggestions s st).activeIdx = -1) ∧
    (∀ st : AutoUi, (uiStep st .blurFire).activeIdx = -1) ∧
    (∀ st : AutoUi, st.hidden = false → st.rendered.isEmpty = false →
      (uiStep st .escapeKey).activeIdx = -1) ∧
    (∀ st : AutoUi, st.hidden = false → st.rendered.isEmpty = false →
      (uiStep st .arrowDown).activeIdx ≤ (st.rendered.length : Int) - 1 ∧
        0 ≤ (uiStep st .arrowUp).activeIdx) := by
  refine ⟨?_, ?_, ?_, ?_, ?_⟩
  · intro events
    exact runUi_inv_aux events uiInit (by intro hh; simp [uiInit] at hh)
  · intro s st
    by_cases hc : s.isEmpty
    · simp [renderSuggestions, hc]
    · simp [renderSuggestions, hc]
  · intro st
    rfl
  · intro st h1 h2
    have hg : (st.hidden || st.rendered.isEmpty) = false := by
      rw [h1, h2]
      rfl
    simp [uiStep, hg]
  · intro st h1 h2
    have hg : (st.hidden || st.rendered.isEmpty) = false := by
      rw [h1, h2]
      rfl
    constructor
    · simp only [uiStep, hg, Bool.false_eq_true, if_false]
      exact min_le_right _ _
    · simp only [uiStep, hg, Bool.false_eq_true, if_false]
      exact le_max_right _ _

/-- Witness for the amended C10 at a concrete event sequence and state. -/
theorem c10_witness :
    (-1 ≤ (runUi [.input 3, .suggestResolve ["x"]]).activeIdx ∧
      (runUi [.input 3, .suggestResolve ["x"]]).activeIdx <
        ((runUi [.input 3, .suggestResolve ["x"]]).rendered.length : Int)) ∧
    (uiStep ⟨["x"], false, 0⟩ .escapeKey).activeIdx = -1 ∧
    (uiStep ⟨["x"], false, 0⟩ .arrowDown).activeIdx ≤
      (((["x"] : List String).length : Int)) - 1 ∧
    0 ≤ (uiStep ⟨["x"], false, 0⟩ .arrowUp).activeIdx :=
  ⟨c10_index_invariants.1 [.input 3, .suggestResolve ["x"]] rfl,
   c10_index_invariants.2.2.2.1 ⟨["x"], false, 0⟩ rfl rfl,
   (c10_index_invariants.2.2.2.2 ⟨["x"], false, 0⟩ rfl rfl).1,
   (c10_index_invariants.2.2.2.2 ⟨["x"], false, 0⟩ rfl rfl).2⟩

end UESF

